import Mathlib

set_option autoImplicit false

/-!
Shallow embedding of the push-routing handlers of the talk channel module
(src/talk/channel/talk-channel-handler.ts and
src/talk/channel/talk-channel-list.ts).

Stateful code is modelled by explicit state passing: every handler is a pure
function from the reachable state and the pushed data to the pair of the new
state and the ordered list of observable effects (emissions and updater
commits) it performs.  JavaScript object identity of the metaMap, which the
source manipulates through spread-copy and in-place assignment, is modelled by
a heap of metaMap objects addressed by allocation index.
-/

/-- Channel meta value as pushed in a meta-change packet: the meta type
discriminant plus its content, collapsed to a content string. -/
structure SetChannelMeta where
  type : Nat
  content : String
deriving DecidableEq

/-- Decoded chat log record. The field feedData carries the feed-type
discriminant encoded in the log content, which feedFromChat extracts. -/
structure Chatlog where
  logId : Nat
  chatId : Nat
  type : Nat
  senderId : Nat
  feedData : Nat
deriving DecidableEq

/-- Wire struct of a chat log, as embedded in push payloads. -/
structure ChatlogStruct where
  logId : Nat
  chatId : Nat
  type : Nat
  senderId : Nat
  feedData : Nat
deriving DecidableEq

/-- Modelled from the spec: structToChatlog (packet/struct module, not under
src/) decodes a wire chat-log struct into the immutable log record, carrying
over log id, conversation id, type discriminant, sender and content. -/
def structToChatlog (s : ChatlogStruct) : Chatlog :=
  ⟨s.logId, s.chatId, s.type, s.senderId, s.feedData⟩

/-- Modelled from the spec: chat type discriminant of system feed records
(KnownChatType.FEED, chat module, not under src/). -/
def KnownChatType.FEED : Nat := 0

/-- Modelled from the spec: feed type discriminant of the delete-to-all feed
(KnownFeedType.DELETE_TO_ALL, chat module, not under src/). -/
def KnownFeedType.DELETE_TO_ALL : Nat := 14

/-- Decoded system feed, exposing its feed-type discriminant. -/
structure Feed where
  feedType : Nat
deriving DecidableEq

/-- Modelled from the spec: feedFromChat (chat module, not under src/) decodes
a log record content into the system feed it represents. -/
def feedFromChat (c : Chatlog) : Feed := ⟨c.feedData⟩

/-- Wrapper the handler constructs around an incoming chat log. -/
structure TalkChatData where
  chatLog : Chatlog
deriving DecidableEq

/-- Cached per-user record of a channel. -/
structure ChannelUserInfo where
  userId : Nat
  nickname : String
deriving DecidableEq

/-- One metaMap object: insertion-ordered association list from meta type to
latest meta value, mirroring a JavaScript record keyed by meta type. -/
abbrev MetaObj := List (Nat × SetChannelMeta)

/-- Property read on a metaMap object. -/
def getEntry : MetaObj → Nat → Option SetChannelMeta
  | [], _ => none
  | (k, v) :: rest, t => if k = t then some v else getEntry rest t

/-- Property assignment on a metaMap object: replaces the binding of the key
when present, otherwise appends a new binding, preserving insertion order. -/
def setEntry : MetaObj → Nat → SetChannelMeta → MetaObj
  | [], t, v => [(t, v)]
  | (k, w) :: rest, t, v =>
    if k = t then (t, v) :: rest else (k, w) :: setEntry rest t v

/-- Total list read with default, used for heap addressing. -/
def listGetD {α : Type} : List α → Nat → α → α
  | [], _, d => d
  | a :: _, 0, _ => a
  | _ :: rest, n + 1, d => listGetD rest n d

/-- Positional list write, used for heap update. -/
def listSet {α : Type} : List α → Nat → α → List α
  | [], _, _ => []
  | _ :: rest, 0, b => b :: rest
  | a :: rest, n + 1, b => a :: listSet rest n b

/-- Heap of metaMap objects: object identity is the allocation index. -/
abbrev Heap := List MetaObj

/-- Read the object at the given identity. -/
def heapGet (h : Heap) (i : Nat) : MetaObj := listGetD h i []

/-- Allocate a fresh object holding a copy of the given entries; this models
the object spread in the source, which copies entries into a new object. -/
def heapAlloc (h : Heap) (o : MetaObj) : Nat × Heap := (h.length, h ++ [o])

/-- In-place property assignment on the object with the given identity. -/
def heapSet (h : Heap) (i : Nat) (t : Nat) (v : SetChannelMeta) : Heap :=
  listSet h i (setEntry (heapGet h i) t v)

/-- Cached channel info: last chat log id and record, and the identity of the
current metaMap object on the heap. -/
structure ChannelInfo where
  lastChatLogId : Nat
  lastChatLog : Option Chatlog
  metaMap : Nat
deriving DecidableEq

/-- State reachable from a TalkChannelHandler: its channel id, the data
store's cached info, user table and watermarks, and the metaMap heap. -/
structure HandlerState where
  channelId : Nat
  info : ChannelInfo
  userMap : List (Nat × ChannelUserInfo)
  watermarks : List (Nat × Nat)
  heap : Heap
deriving DecidableEq

/-- Store lookup getUserInfo: first binding of the given user id. -/
def getUserInfo (s : HandlerState) (uid : Nat) : Option ChannelUserInfo :=
  (s.userMap.find? (fun p => p.1 == uid)).map Prod.snd

/-- Association-list update keyed on the first component. -/
def setAssoc {β : Type} : List (Nat × β) → Nat → β → List (Nat × β)
  | [], k, v => [(k, v)]
  | (k0, w) :: rest, k, v =>
    if k0 = k then (k, v) :: rest else (k0, w) :: setAssoc rest k v

/-- Association-list removal keyed on the first component. -/
def removeAssoc {β : Type} : List (Nat × β) → Nat → List (Nat × β)
  | [], _ => []
  | (k0, w) :: rest, k =>
    if k0 = k then rest else (k0, w) :: removeAssoc rest k

/-- Patch passed to the updater updateInfo call (a Partial of the channel
info): only the present fields are replaced. -/
structure InfoPatch where
  lastChatLogId : Option Nat
  lastChatLog : Option Chatlog
  metaMap : Option Nat
deriving DecidableEq

/-- Modelled from the spec: the Updater collaborator commitInfo merges the
given partial record into the cached info. -/
def applyPatch (i : ChannelInfo) (p : InfoPatch) : ChannelInfo :=
  ⟨p.lastChatLogId.getD i.lastChatLogId,
   match p.lastChatLog with
   | some l => some l
   | none => i.lastChatLog,
   p.metaMap.getD i.metaMap⟩

/-- Modelled from the spec: Updater updateInfo applied to the store. -/
def updaterUpdateInfo (s : HandlerState) (p : InfoPatch) : HandlerState :=
  { s with info := applyPatch s.info p }

/-- Modelled from the spec: Updater updateWatermark, keyed purely by the user
identifier. -/
def updaterUpdateWatermark (s : HandlerState) (uid wm : Nat) : HandlerState :=
  { s with watermarks := setAssoc s.watermarks uid wm }

/-- Modelled from the spec: Updater removeUser. -/
def updaterRemoveUser (s : HandlerState) (uid : Nat) : HandlerState :=
  { s with userMap := removeAssoc s.userMap uid }

/-- Modelled from the spec: Updater updateUserInfo commits a user record to
the local cache. -/
def updaterUpdateUserInfo (s : HandlerState) (uid : Nat) (u : ChannelUserInfo) :
    HandlerState :=
  { s with userMap := setAssoc s.userMap uid u }

/-- Typed channel events with their argument tuples, as emitted by the
channel handler. -/
inductive ChannelEvent where
  | chat (data : TalkChatData) (channelId : Nat)
  | chat_read (logId : Nat) (channelId : Nat) (reader : Option ChannelUserInfo)
  | meta_change (channelId : Nat) (metaType : Nat) (meta : SetChannelMeta)
  | user_left (log : Chatlog) (channelId : Nat) (user : ChannelUserInfo) (feed : Feed)
  | user_join (log : Chatlog) (channelId : Nat) (user : ChannelUserInfo) (feed : Feed)
  | chat_deleted (log : Chatlog) (channelId : Nat) (feed : Feed)
deriving DecidableEq

/-- Observable actions of one handler run, in program order: emissions on the
local emitter, emissions on the parent EventContext, and updater commits. -/
inductive Effect where
  | emitLocal (ev : ChannelEvent)
  | emitParent (ev : ChannelEvent)
  | updateInfo (p : InfoPatch)
  | updateWatermark (userId : Nat) (watermark : Nat)
  | removeUser (userId : Nat)
  | updateUserInfo (userId : Nat) (user : ChannelUserInfo)
deriving DecidableEq

/-- The handler callEvent helper: emit on the local emitter, then forward the
identical call to the parent context. -/
def callEvent (ev : ChannelEvent) : List Effect :=
  [Effect.emitLocal ev, Effect.emitParent ev]

/-- Payload of a MSG push. -/
structure MsgRes where
  chatId : Nat
  logId : Nat
  chatLog : ChatlogStruct
deriving DecidableEq

/-- Payload of a DECUNREAD push. -/
structure DecunreadRes where
  chatId : Nat
  userId : Nat
  watermark : Nat
deriving DecidableEq

/-- Payload of a CHGMETA push. -/
structure ChgMetaRes where
  chatId : Nat
  meta : SetChannelMeta
deriving DecidableEq

/-- TalkChannelHandler msgHandler: on a matching conversation id, decode the
log, emit chat locally and to the parent, then commit lastChatLogId and
lastChatLog unconditionally; otherwise do nothing. -/
def msgHandler (s : HandlerState) (msgData : MsgRes) : HandlerState × List Effect :=
  if s.channelId = msgData.chatId then
    let chatLog := structToChatlog msgData.chatLog
    let emits := callEvent (ChannelEvent.chat ⟨chatLog⟩ s.channelId)
    let p : InfoPatch := ⟨some msgData.logId, some chatLog, none⟩
    (updaterUpdateInfo s p, emits ++ [Effect.updateInfo p])
  else (s, [])

/-- TalkChannelHandler chatReadHandler: on a matching conversation id, look up
the reader, commit the watermark for the pushed user id, then emit chat_read
with the possibly absent reader. -/
def chatReadHandler (s : HandlerState) (readData : DecunreadRes) :
    HandlerState × List Effect :=
  if s.channelId = readData.chatId then
    let reader := getUserInfo s readData.userId
    let s1 := updaterUpdateWatermark s readData.userId readData.watermark
    (s1, Effect.updateWatermark readData.userId readData.watermark ::
      callEvent (ChannelEvent.chat_read readData.watermark s.channelId reader))
  else (s, [])

/-- TalkChannelHandler metaChangeHandler: on a matching conversation id, emit
meta_change, then build a fresh copy of the current metaMap object with the
pushed type replaced, and commit the new object. -/
def metaChangeHandler (s : HandlerState) (metaData : ChgMetaRes) :
    HandlerState × List Effect :=
  if s.channelId = metaData.chatId then
    let metaType := metaData.meta.type
    let meta := metaData.meta
    let emits := callEvent (ChannelEvent.meta_change s.channelId metaType meta)
    let alloc := heapAlloc s.heap (heapGet s.heap s.info.metaMap)
    let h2 := heapSet alloc.2 alloc.1 metaType meta
    let p : InfoPatch := ⟨none, none, some alloc.1⟩
    (updaterUpdateInfo { s with heap := h2 } p, emits ++ [Effect.updateInfo p])
  else (s, [])

/-- TalkChannelHandler userLeftHandler: on a matching conversation id, resolve
the sender; when absent, do nothing; otherwise remove the user from the local
cache and, when the log is feed-typed, emit user_left. -/
def userLeftHandler (s : HandlerState) (struct : ChatlogStruct) :
    HandlerState × List Effect :=
  if s.channelId = struct.chatId then
    let chatLog := structToChatlog struct
    match getUserInfo s chatLog.senderId with
    | none => (s, [])
    | some user =>
      let s1 := updaterRemoveUser s chatLog.senderId
      if chatLog.type = KnownChatType.FEED then
        (s1, Effect.removeUser chatLog.senderId ::
          callEvent (ChannelEvent.user_left chatLog s.channelId user (feedFromChat chatLog)))
      else (s1, [Effect.removeUser chatLog.senderId])
  else (s, [])

/-- Result of the session asynchronous getLatestUserInfo fetch: an explicit
success flag and the list of resolved user records. -/
structure UsersRes where
  success : Bool
  result : List ChannelUserInfo
deriving DecidableEq

/-- Loop body of the userJoinHandler fetch continuation: for each resolved
user, commit the record to the local cache, then emit user_join once. -/
def joinLoop (chid : Nat) (chatLog : Chatlog) :
    HandlerState → List ChannelUserInfo → HandlerState × List Effect
  | s, [] => (s, [])
  | s, u :: rest =>
    let s1 := updaterUpdateUserInfo s u.userId u
    let here := Effect.updateUserInfo u.userId u ::
      callEvent (ChannelEvent.user_join chatLog chid u (feedFromChat chatLog))
    let tail := joinLoop chid chatLog s1 rest
    (tail.1, here ++ tail.2)

/-- TalkChannelHandler userJoinHandler, with the session collaborator fetch
supplied as a function and the continuation run to completion: on a matching
conversation id and a feed-typed log, fetch the latest user records of the
sender; on failure do nothing; on success run the per-user commit and emit
loop. -/
def userJoinHandler (session : Nat → UsersRes) (s : HandlerState)
    (struct : ChatlogStruct) : HandlerState × List Effect :=
  if s.channelId = struct.chatId then
    let chatLog := structToChatlog struct
    if chatLog.type = KnownChatType.FEED then
      let usersRes := session chatLog.senderId
      if usersRes.success then joinLoop s.channelId chatLog s usersRes.result
      else (s, [])
    else (s, [])
  else (s, [])

/-- TalkChannelHandler msgDeleteHandler: on a matching conversation id, a
feed-typed log whose decoded feed is delete-to-all yields one chat_deleted
emission; anything else yields nothing; no state is touched. -/
def msgDeleteHandler (s : HandlerState) (struct : ChatlogStruct) :
    HandlerState × List Effect :=
  if s.channelId = struct.chatId then
    let chatLog := structToChatlog struct
    if chatLog.type = KnownChatType.FEED then
      if (feedFromChat chatLog).feedType = KnownFeedType.DELETE_TO_ALL then
        (s, callEvent (ChannelEvent.chat_deleted chatLog s.channelId (feedFromChat chatLog)))
      else (s, [])
    else (s, [])
  else (s, [])

/-- Fields of the dynamic push payload used by the channel list handler:
chatId for a LEFT push and c for a SYNCJOIN push. -/
structure ListData where
  chatId : Nat
  c : Nat
deriving DecidableEq

/-- State of the channel list store: the ids of the tracked channels. -/
structure ListState where
  channels : List Nat
deriving DecidableEq

/-- ListStore get: resolves an id to the tracked channel carrying it. -/
def listStoreGet (s : ListState) (chid : Nat) : Option Nat :=
  if s.channels.contains chid then some chid else none

/-- Typed channel list events with their argument tuples. -/
inductive ListEvent where
  | channel_left (channelId : Nat)
  | channel_join (channelId : Nat)
deriving DecidableEq

/-- Observable actions of one list handler run, in program order. The
removeChannel effect records the boolean result the updater returned. -/
inductive LEffect where
  | emitLocal (ev : ListEvent)
  | emitParent (ev : ListEvent)
  | removeChannel (channelId : Nat) (result : Bool)
  | addChannel (channelId : Nat)
deriving DecidableEq

/-- The list handler callEvent helper: emit locally, then to the parent. -/
def callListEvent (ev : ListEvent) : List LEffect :=
  [LEffect.emitLocal ev, LEffect.emitParent ev]

/-- Result of the list updater asynchronous addChannel call. -/
structure AddRes where
  success : Bool
  result : Nat
deriving DecidableEq

/-- TalkChannelListHandler pushReceived: dispatch on the push method string.
The boolean result of the updater removeChannel call and the asynchronous
addChannel result are supplied by oracle functions; removal drops the channel
from the list store (modelled from the spec ListUpdater contract). -/
def listPushReceived (removeRes : Nat → Bool) (addRes : Nat → AddRes)
    (s : ListState) (method : String) (data : ListData) :
    ListState × List LEffect :=
  if method = "LEFT" then
    match listStoreGet s data.chatId with
    | none => (s, [])
    | some ch =>
      let s1 : ListState := ⟨s.channels.filter (fun x => x != ch)⟩
      (s1, LEffect.removeChannel ch (removeRes ch) ::
        callListEvent (ListEvent.channel_left ch))
  else if method = "SYNCJOIN" then
    let res := addRes data.c
    if res.success then
      (s, LEffect.addChannel data.c ::
        callListEvent (ListEvent.channel_join res.result))
    else (s, [LEffect.addChannel data.c])
  else (s, [])

/-- Modelled from the spec: an EventContext wraps a local sink (identified by
a numeric sink id) and an optional parent context (event module, not under
src/). -/
inductive EventContext where
  | root (sinkId : Nat)
  | node (sinkId : Nat) (parent : EventContext)
deriving DecidableEq

/-- Parent of an EventContext, when it has one. -/
def EventContext.parentOf : EventContext → Option EventContext
  | .root _ => none
  | .node _ p => some p

/-- The two sub-registries of the channel list. -/
inductive SubListTag where
  | normalList
  | openList
deriving DecidableEq

/-- One forwarded pushReceived call to a sub-registry. -/
structure ForwardCall (α : Type) where
  target : SubListTag
  method : String
  data : α
  ctx : EventContext
deriving DecidableEq

/-- TalkChannelList pushReceived: construct one child EventContext under the
given parent, with the list itself as local sink, and forward the identical
method and data first to the normal list, then to the open list, through that
single context. -/
def TalkChannelList.pushReceived {α : Type} (selfId : Nat) (method : String)
    (data : α) (parentCtx : EventContext) : List (ForwardCall α) :=
  let ctx := EventContext.node selfId parentCtx
  [⟨SubListTag.normalList, method, data, ctx⟩,
   ⟨SubListTag.openList, method, data, ctx⟩]

/-- Count of list elements satisfying a boolean test. -/
def countBy {α : Type} (p : α → Bool) : List α → Nat
  | [] => 0
  | a :: rest => (if p a then 1 else 0) + countBy p rest

/-- Test for a local chat emission. -/
def isLocalChatEmit : Effect → Bool
  | Effect.emitLocal (ChannelEvent.chat _ _) => true
  | _ => false

/-- Test for a local user_join emission. -/
def isLocalUserJoinEmit : Effect → Bool
  | Effect.emitLocal (ChannelEvent.user_join _ _ _ _) => true
  | _ => false

/-- Test for a local chat_deleted emission. -/
def isLocalDeletedEmit : Effect → Bool
  | Effect.emitLocal (ChannelEvent.chat_deleted _ _ _) => true
  | _ => false

/-- Test for a local channel_left emission. -/
def isLocalChannelLeftEmit : LEffect → Bool
  | LEffect.emitLocal (ListEvent.channel_left _) => true
  | _ => false

/-- Test for any emission effect of the list handler. -/
def isListEmit : LEffect → Bool
  | LEffect.emitLocal _ => true
  | LEffect.emitParent _ => true
  | _ => false

/-- Emissions of a list handler trace, in order. -/
def listEmissions (l : List LEffect) : List LEffect := l.filter isListEmit

/-- Expected trace of the userJoinHandler success continuation: for each
resolved user, in order, one cache commit followed by the local and parent
user_join emissions for that user. -/
def joinTrace (chid : Nat) (chatLog : Chatlog) : List ChannelUserInfo → List Effect
  | [] => []
  | u :: rest =>
    Effect.updateUserInfo u.userId u ::
    Effect.emitLocal (ChannelEvent.user_join chatLog chid u (feedFromChat chatLog)) ::
    Effect.emitParent (ChannelEvent.user_join chatLog chid u (feedFromChat chatLog)) ::
    joinTrace chid chatLog rest

/-- The new metaMap replaces exactly the pushed type: it holds the pushed
value there and agrees with the old map on every other key. -/
def replacesOnly (newM oldM : MetaObj) (t : Nat) (v : SetChannelMeta) : Prop :=
  getEntry newM t = some v ∧ ∀ k, k ≠ t → getEntry newM k = getEntry oldM k

theorem listGetD_append_length {α : Type} (l : List α) (a : α) (d : α) :
    listGetD (l ++ [a]) l.length d = a := by
  induction l with
  | nil => rfl
  | cons x xs ih => simpa [listGetD] using ih

theorem listGetD_append_lt {α : Type} (l l2 : List α) (i : Nat) (d : α)
    (h : i < l.length) : listGetD (l ++ l2) i d = listGetD l i d := by
  induction l generalizing i with
  | nil => exact absurd h (Nat.not_lt_zero i)
  | cons x xs ih =>
    cases i with
    | zero => rfl
    | succ n => exact ih n (Nat.lt_of_succ_lt_succ h)

theorem listSet_append_length {α : Type} (l : List α) (a b : α) :
    listSet (l ++ [a]) l.length b = l ++ [b] := by
  induction l with
  | nil => rfl
  | cons x xs ih => simpa [listSet] using ih

theorem getEntry_setEntry_self (m : MetaObj) (t : Nat) (v : SetChannelMeta) :
    getEntry (setEntry m t v) t = some v := by
  induction m with
  | nil => simp [setEntry, getEntry]
  | cons p rest ih =>
    obtain ⟨k, w⟩ := p
    by_cases h : k = t
    · simp [setEntry, h, getEntry]
    · simp [setEntry, h, getEntry, ih]

theorem getEntry_setEntry_ne (m : MetaObj) (t k : Nat) (v : SetChannelMeta)
    (h : k ≠ t) : getEntry (setEntry m t v) k = getEntry m k := by
  induction m with
  | nil => simp [setEntry, getEntry, h.symm]
  | cons p rest ih =>
    obtain ⟨k0, w⟩ := p
    by_cases h0 : k0 = t
    · subst h0
      simp [setEntry, getEntry, h.symm]
    · simp [setEntry, h0, getEntry, ih]

theorem joinLoop_trace (chid : Nat) (chatLog : Chatlog)
    (users : List ChannelUserInfo) (s : HandlerState) :
    (joinLoop chid chatLog s users).2 = joinTrace chid chatLog users := by
  induction users generalizing s with
  | nil => rfl
  | cons u rest ih => simp [joinLoop, joinTrace, callEvent, ih]

theorem countBy_joinTrace (chid : Nat) (chatLog : Chatlog)
    (users : List ChannelUserInfo) :
    countBy isLocalUserJoinEmit (joinTrace chid chatLog users) = users.length := by
  induction users with
  | nil => rfl
  | cons u rest ih => simp [joinTrace, countBy, isLocalUserJoinEmit, ih, Nat.add_comm]

theorem metaChange_run (s : HandlerState) (md : ChgMetaRes)
    (hmatch : s.channelId = md.chatId) :
    metaChangeHandler s md =
      ({ s with
          info := ⟨s.info.lastChatLogId, s.info.lastChatLog, s.heap.length⟩,
          heap := s.heap ++
            [setEntry (heapGet s.heap s.info.metaMap) md.meta.type md.meta] },
       [Effect.emitLocal (ChannelEvent.meta_change s.channelId md.meta.type md.meta),
        Effect.emitParent (ChannelEvent.meta_change s.channelId md.meta.type md.meta),
        Effect.updateInfo ⟨none, none, some s.heap.length⟩]) := by
  simp only [metaChangeHandler, if_pos hmatch, heapAlloc, heapSet, heapGet,
    updaterUpdateInfo, applyPatch, callEvent, listGetD_append_length,
    listSet_append_length, Option.getD, List.cons_append, List.nil_append]

/-- C1: for every meta-change push whose conversation id matches, the handler
commits a metaMap whose identity is distinct from the previously held map,
whose entries replace only the pushed meta type and keep every other key, and
the previously held map object is never mutated in place. -/
theorem metaChange_replaces_single_key (s : HandlerState) (md : ChgMetaRes)
    (hmatch : s.channelId = md.chatId)
    (hvalid : s.info.metaMap < s.heap.length) :
    (metaChangeHandler s md).1.info.metaMap ≠ s.info.metaMap ∧
    replacesOnly
      (heapGet (metaChangeHandler s md).1.heap (metaChangeHandler s md).1.info.metaMap)
      (heapGet s.heap s.info.metaMap) md.meta.type md.meta ∧
    heapGet (metaChangeHandler s md).1.heap s.info.metaMap =
      heapGet s.heap s.info.metaMap := by
  rw [metaChange_run s md hmatch]
  refine ⟨(Nat.ne_of_lt hvalid).symm, ?_, ?_⟩
  · show replacesOnly
      (heapGet (s.heap ++ [setEntry (heapGet s.heap s.info.metaMap) md.meta.type md.meta])
        s.heap.length)
      (heapGet s.heap s.info.metaMap) md.meta.type md.meta
    rw [show heapGet (s.heap ++ [setEntry (heapGet s.heap s.info.metaMap) md.meta.type md.meta])
        s.heap.length = setEntry (heapGet s.heap s.info.metaMap) md.meta.type md.meta from
      listGetD_append_length s.heap _ []]
    exact ⟨getEntry_setEntry_self _ _ _, fun k hk => getEntry_setEntry_ne _ _ _ _ hk⟩
  · exact listGetD_append_lt s.heap _ s.info.metaMap [] hvalid

def wState1 : HandlerState :=
  ⟨7, ⟨5, none, 0⟩, [], [], [[(1, ⟨1, "title"⟩), (2, ⟨2, "notice"⟩)]]⟩

def wMeta : ChgMetaRes := ⟨7, ⟨1, "renamed"⟩⟩

theorem metaChange_replaces_single_key_witness :
    wState1.channelId = wMeta.chatId ∧
    wState1.info.metaMap < wState1.heap.length ∧
    ((metaChangeHandler wState1 wMeta).1.info.metaMap ≠ wState1.info.metaMap ∧
     replacesOnly
       (heapGet (metaChangeHandler wState1 wMeta).1.heap
         (metaChangeHandler wState1 wMeta).1.info.metaMap)
       (heapGet wState1.heap wState1.info.metaMap) wMeta.meta.type wMeta.meta ∧
     heapGet (metaChangeHandler wState1 wMeta).1.heap wState1.info.metaMap =
       heapGet wState1.heap wState1.info.metaMap) :=
  ⟨rfl, by decide, metaChange_replaces_single_key wState1 wMeta rfl (by decide)⟩

/-- C2: for every meta-change push whose conversation id matches, the
meta_change event is emitted locally and to the parent context strictly before
the new metaMap is committed through the updater, and the committed map is
built from the previously committed metaMap snapshot. -/
theorem metaChange_emit_before_commit (s : HandlerState) (md : ChgMetaRes)
    (hmatch : s.channelId = md.chatId) :
    (metaChangeHandler s md).2 =
      [Effect.emitLocal (ChannelEvent.meta_change s.channelId md.meta.type md.meta),
       Effect.emitParent (ChannelEvent.meta_change s.channelId md.meta.type md.meta),
       Effect.updateInfo ⟨none, none, some s.heap.length⟩] ∧
    heapGet (metaChangeHandler s md).1.heap s.heap.length =
      setEntry (heapGet s.heap s.info.metaMap) md.meta.type md.meta := by
  rw [metaChange_run s md hmatch]
  exact ⟨rfl, listGetD_append_length s.heap _ []⟩

theorem metaChange_emit_before_commit_witness :
    (metaChangeHandler wState1 wMeta).2 =
      [Effect.emitLocal (ChannelEvent.meta_change wState1.channelId wMeta.meta.type wMeta.meta),
       Effect.emitParent (ChannelEvent.meta_change wState1.channelId wMeta.meta.type wMeta.meta),
       Effect.updateInfo ⟨none, none, some wState1.heap.length⟩] ∧
    heapGet (metaChangeHandler wState1 wMeta).1.heap wState1.heap.length =
      setEntry (heapGet wState1.heap wState1.info.metaMap) wMeta.meta.type wMeta.meta :=
  metaChange_emit_before_commit wState1 wMeta rfl

/-- C3: for every message-post push with matching conversation id, the handler
emits chat exactly once with the decoded record, locally then to the parent,
and afterwards commits lastChatLogId and lastChatLog to the pushed record
unconditionally, for every stored state; a push with a non-matching id
mutates nothing and emits nothing. -/
theorem msg_emit_then_commit (s : HandlerState) (md : MsgRes) :
    (s.channelId = md.chatId →
      msgHandler s md =
        ({ s with info :=
            ⟨md.logId, some (structToChatlog md.chatLog), s.info.metaMap⟩ },
         [Effect.emitLocal (ChannelEvent.chat ⟨structToChatlog md.chatLog⟩ s.channelId),
          Effect.emitParent (ChannelEvent.chat ⟨structToChatlog md.chatLog⟩ s.channelId),
          Effect.updateInfo ⟨some md.logId, some (structToChatlog md.chatLog), none⟩]) ∧
      countBy isLocalChatEmit (msgHandler s md).2 = 1) ∧
    (s.channelId ≠ md.chatId → msgHandler s md = (s, [])) := by
  constructor
  · intro h
    constructor
    · simp [msgHandler, h, updaterUpdateInfo, applyPatch, callEvent]
    · simp [msgHandler, h, callEvent, countBy, isLocalChatEmit]
  · intro h
    simp [msgHandler, h]

def wMsgState : HandlerState := ⟨3, ⟨10, none, 0⟩, [], [], [[]]⟩

def wMsg : MsgRes := ⟨3, 11, ⟨11, 3, 1, 5, 0⟩⟩

theorem msg_emit_then_commit_witness :
    msgHandler wMsgState wMsg =
      ({ wMsgState with info :=
          ⟨wMsg.logId, some (structToChatlog wMsg.chatLog), wMsgState.info.metaMap⟩ },
       [Effect.emitLocal (ChannelEvent.chat ⟨structToChatlog wMsg.chatLog⟩ wMsgState.channelId),
        Effect.emitParent (ChannelEvent.chat ⟨structToChatlog wMsg.chatLog⟩ wMsgState.channelId),
        Effect.updateInfo ⟨some wMsg.logId, some (structToChatlog wMsg.chatLog), none⟩]) ∧
    countBy isLocalChatEmit (msgHandler wMsgState wMsg).2 = 1 :=
  (msg_emit_then_commit wMsgState wMsg).1 rfl

/-- C4: for every member-joined push with matching conversation id and
feed-typed log, when the profile fetch succeeds the handler runs the per-user
loop, committing each resolved user to the local cache and then emitting
user_join once for that user, so user_join is emitted exactly K times for K
resolved records; when the fetch fails it emits nothing and mutates nothing. -/
theorem userJoin_success_and_failure (session : Nat → UsersRes)
    (s : HandlerState) (d : ChatlogStruct)
    (hmatch : s.channelId = d.chatId)
    (hfeed : (structToChatlog d).type = KnownChatType.FEED) :
    ((session (structToChatlog d).senderId).success = true →
      (userJoinHandler session s d).2 =
        joinTrace s.channelId (structToChatlog d)
          (session (structToChatlog d).senderId).result ∧
      countBy isLocalUserJoinEmit (userJoinHandler session s d).2 =
        ((session (structToChatlog d).senderId).result).length) ∧
    ((session (structToChatlog d).senderId).success = false →
      userJoinHandler session s d = (s, [])) := by
  constructor
  · intro hsucc
    have htrace : (userJoinHandler session s d).2 =
        joinTrace s.channelId (structToChatlog d)
          (session (structToChatlog d).senderId).result := by
      simp [userJoinHandler, hmatch, hfeed, hsucc, joinLoop_trace]
    exact ⟨htrace, by rw [htrace, countBy_joinTrace]⟩
  · intro hfail
    simp [userJoinHandler, hmatch, hfeed, hfail]

def wJoinState : HandlerState := ⟨8, ⟨0, none, 0⟩, [], [], [[]]⟩

def wJoin : ChatlogStruct := ⟨70, 8, 0, 12, 1⟩

def wSession : Nat → UsersRes := fun _ => ⟨true, [⟨21, "a"⟩, ⟨22, "b"⟩]⟩

theorem userJoin_success_and_failure_witness :
    (userJoinHandler wSession wJoinState wJoin).2 =
      joinTrace wJoinState.channelId (structToChatlog wJoin)
        (wSession (structToChatlog wJoin).senderId).result ∧
    countBy isLocalUserJoinEmit (userJoinHandler wSession wJoinState wJoin).2 =
      ((wSession (structToChatlog wJoin).senderId).result).length :=
  (userJoin_success_and_failure wSession wJoinState wJoin rfl rfl).1 rfl

/-- C5: for every read-receipt push whose conversation id matches, the
watermark for the pushed user id is committed through the updater before the
chat_read event is emitted, and the commit and emission happen for every
state, in particular when the user id does not resolve to a record, in which
case the emitted reader argument is absent; a non-matching push does
nothing. -/
theorem chatRead_commit_then_emit (s : HandlerState) (rd : DecunreadRes) :
    (s.channelId = rd.chatId →
      chatReadHandler s rd =
        ({ s with watermarks := setAssoc s.watermarks rd.userId rd.watermark },
         [Effect.updateWatermark rd.userId rd.watermark,
          Effect.emitLocal (ChannelEvent.chat_read rd.watermark s.channelId
            (getUserInfo s rd.userId)),
          Effect.emitParent (ChannelEvent.chat_read rd.watermark s.channelId
            (getUserInfo s rd.userId))])) ∧
    (s.channelId ≠ rd.chatId → chatReadHandler s rd = (s, [])) := by
  constructor
  · intro h
    simp [chatReadHandler, h, updaterUpdateWatermark, callEvent]
  · intro h
    simp [chatReadHandler, h]

def wReadState : HandlerState := ⟨4, ⟨0, none, 0⟩, [], [], [[]]⟩

def wRead : DecunreadRes := ⟨4, 9, 33⟩

theorem chatRead_commit_then_emit_witness :
    getUserInfo wReadState wRead.userId = none ∧
    chatReadHandler wReadState wRead =
      ({ wReadState with
          watermarks := setAssoc wReadState.watermarks wRead.userId wRead.watermark },
       [Effect.updateWatermark wRead.userId wRead.watermark,
        Effect.emitLocal (ChannelEvent.chat_read wRead.watermark wReadState.channelId
          (getUserInfo wReadState wRead.userId)),
        Effect.emitParent (ChannelEvent.chat_read wRead.watermark wReadState.channelId
          (getUserInfo wReadState wRead.userId))]) :=
  ⟨rfl, (chatRead_commit_then_emit wReadState wRead).1 rfl⟩

/-- C6: the message-delete-sync handler never mutates cached state, and for a
matching conversation id it emits chat_deleted exactly once if and only if
the decoded log is feed-typed and its decoded feed subtype is delete-to-all;
any other log type or feed subtype, or a non-matching id, yields no
emission. -/
theorem msgDelete_emit_iff_delete_to_all (s : HandlerState) (d : ChatlogStruct) :
    (msgDeleteHandler s d).1 = s ∧
    (s.channelId = d.chatId →
      (msgDeleteHandler s d).2 =
        (if (structToChatlog d).type = KnownChatType.FEED ∧
            (feedFromChat (structToChatlog d)).feedType = KnownFeedType.DELETE_TO_ALL then
          callEvent (ChannelEvent.chat_deleted (structToChatlog d) s.channelId
            (feedFromChat (structToChatlog d)))
        else []) ∧
      (countBy isLocalDeletedEmit (msgDeleteHandler s d).2 = 1 ↔
        ((structToChatlog d).type = KnownChatType.FEED ∧
         (feedFromChat (structToChatlog d)).feedType = KnownFeedType.DELETE_TO_ALL))) ∧
    (s.channelId ≠ d.chatId → (msgDeleteHandler s d).2 = []) := by
  by_cases h1 : s.channelId = d.chatId
  · by_cases h2 : (structToChatlog d).type = KnownChatType.FEED
    · by_cases h3 : (feedFromChat (structToChatlog d)).feedType = KnownFeedType.DELETE_TO_ALL
      · refine ⟨by simp [msgDeleteHandler, h1, h2, h3], fun _ => ⟨?_, ?_⟩, fun hn => absurd h1 hn⟩
        · simp [msgDeleteHandler, h1, h2, h3]
        · simp [msgDeleteHandler, h1, h2, h3, callEvent, countBy, isLocalDeletedEmit]
      · refine ⟨by simp [msgDeleteHandler, h1, h2, h3], fun _ => ⟨?_, ?_⟩, fun hn => absurd h1 hn⟩
        · simp [msgDeleteHandler, h1, h2, h3]
        · simp [msgDeleteHandler, h1, h2, h3, countBy]
    · refine ⟨by simp [msgDeleteHandler, h1, h2], fun _ => ⟨?_, ?_⟩, fun hn => absurd h1 hn⟩
      · simp [msgDeleteHandler, h1, h2]
      · simp [msgDeleteHandler, h1, h2, countBy]
  · refine ⟨by simp [msgDeleteHandler, h1], fun hm => absurd hm h1, fun _ => by simp [msgDeleteHandler, h1]⟩

def wDelState : HandlerState := ⟨5, ⟨0, none, 0⟩, [], [], [[]]⟩

def wDel : ChatlogStruct := ⟨50, 5, 0, 8, 14⟩

theorem msgDelete_emit_iff_delete_to_all_witness :
    (msgDeleteHandler wDelState wDel).1 = wDelState ∧
    ((msgDeleteHandler wDelState wDel).2 =
        (if (structToChatlog wDel).type = KnownChatType.FEED ∧
            (feedFromChat (structToChatlog wDel)).feedType = KnownFeedType.DELETE_TO_ALL then
          callEvent (ChannelEvent.chat_deleted (structToChatlog wDel) wDelState.channelId
            (feedFromChat (structToChatlog wDel)))
        else []) ∧
      (countBy isLocalDeletedEmit (msgDeleteHandler wDelState wDel).2 = 1 ↔
        ((structToChatlog wDel).type = KnownChatType.FEED ∧
         (feedFromChat (structToChatlog wDel)).feedType = KnownFeedType.DELETE_TO_ALL))) :=
  ⟨(msgDelete_emit_iff_delete_to_all wDelState wDel).1,
   (msgDelete_emit_iff_delete_to_all wDelState wDel).2.1 rfl⟩

/-- C7: for every member-left push whose embedded log's conversation id
matches but whose sender does not resolve in the local user store, the
handler performs no removal, no other mutation and no emission; and for a
matching push the trace is the user removal followed, only for a feed-typed
log, by the user_left emissions, so removal precedes any emission. -/
theorem userLeft_unresolved_noop (s : HandlerState) (d : ChatlogStruct) :
    (s.channelId = d.chatId ∧ getUserInfo s (structToChatlog d).senderId = none →
      userLeftHandler s d = (s, [])) ∧
    (s.channelId = d.chatId →
      (userLeftHandler s d).2 =
        (match getUserInfo s (structToChatlog d).senderId with
         | none => []
         | some u =>
           Effect.removeUser (structToChatlog d).senderId ::
             (if (structToChatlog d).type = KnownChatType.FEED then
               callEvent (ChannelEvent.user_left (structToChatlog d) s.channelId u
                 (feedFromChat (structToChatlog d)))
              else []))) := by
  constructor
  · rintro ⟨h1, h2⟩
    simp [userLeftHandler, h1, h2]
  · intro h1
    cases hu : getUserInfo s (structToChatlog d).senderId with
    | none => simp [userLeftHandler, h1, hu]
    | some u =>
      by_cases h2 : (structToChatlog d).type = KnownChatType.FEED
      · simp [userLeftHandler, h1, hu, h2, callEvent]
      · simp [userLeftHandler, h1, hu, h2]

def wLeftState : HandlerState := ⟨6, ⟨0, none, 0⟩, [], [], [[]]⟩

def wLeft : ChatlogStruct := ⟨60, 6, 0, 9, 2⟩

theorem userLeft_unresolved_noop_witness :
    userLeftHandler wLeftState wLeft = (wLeftState, []) ∧
    (userLeftHandler wLeftState wLeft).2 =
      (match getUserInfo wLeftState (structToChatlog wLeft).senderId with
       | none => []
       | some u =>
         Effect.removeUser (structToChatlog wLeft).senderId ::
           (if (structToChatlog wLeft).type = KnownChatType.FEED then
             callEvent (ChannelEvent.user_left (structToChatlog wLeft) wLeftState.channelId u
               (feedFromChat (structToChatlog wLeft)))
            else [])) :=
  ⟨(userLeft_unresolved_noop wLeftState wLeft).1 ⟨rfl, rfl⟩,
   (userLeft_unresolved_noop wLeftState wLeft).2 rfl⟩

/-- C8: for every membership-left push whose id is absent from the list
store, the list handler performs no removal and no emission; for a present
id it records the updater removeChannel invocation and then emits
channel_left with that conversation exactly once, in that order. -/
theorem listLeft_remove_then_emit (removeRes : Nat → Bool) (addRes : Nat → AddRes)
    (s : ListState) (data : ListData) :
    (listStoreGet s data.chatId = none →
      listPushReceived removeRes addRes s "LEFT" data = (s, [])) ∧
    (listStoreGet s data.chatId = some data.chatId →
      (listPushReceived removeRes addRes s "LEFT" data).2 =
        [LEffect.removeChannel data.chatId (removeRes data.chatId),
         LEffect.emitLocal (ListEvent.channel_left data.chatId),
         LEffect.emitParent (ListEvent.channel_left data.chatId)] ∧
      countBy isLocalChannelLeftEmit (listPushReceived removeRes addRes s "LEFT" data).2 = 1) := by
  constructor
  · intro h
    simp [listPushReceived, h]
  · intro h
    constructor
    · simp [listPushReceived, h, callListEvent]
    · simp [listPushReceived, h, callListEvent, countBy, isLocalChannelLeftEmit]

def wListState : ListState := ⟨[3, 4, 5]⟩

def wListData : ListData := ⟨4, 0⟩

def wRemoveRes : Nat → Bool := fun _ => true

def wAddRes : Nat → AddRes := fun _ => ⟨true, 0⟩

theorem listLeft_remove_then_emit_witness :
    (listPushReceived wRemoveRes wAddRes wListState "LEFT" wListData).2 =
      [LEffect.removeChannel wListData.chatId (wRemoveRes wListData.chatId),
       LEffect.emitLocal (ListEvent.channel_left wListData.chatId),
       LEffect.emitParent (ListEvent.channel_left wListData.chatId)] ∧
    countBy isLocalChannelLeftEmit
      (listPushReceived wRemoveRes wAddRes wListState "LEFT" wListData).2 = 1 :=
  (listLeft_remove_then_emit wRemoveRes wAddRes wListState wListData).2 rfl

/-- C9: TalkChannelList pushReceived constructs exactly one child
EventContext under the given parent and forwards the identical method and
payload to the normal sub-registry first and the open sub-registry second,
both through that single shared child context. -/
theorem channelList_single_child_ctx {α : Type} (selfId : Nat) (method : String)
    (data : α) (parentCtx : EventContext) :
    TalkChannelList.pushReceived selfId method data parentCtx =
      [⟨SubListTag.normalList, method, data, EventContext.node selfId parentCtx⟩,
       ⟨SubListTag.openList, method, data, EventContext.node selfId parentCtx⟩] ∧
    (EventContext.node selfId parentCtx).parentOf = some parentCtx :=
  ⟨rfl, rfl⟩

/-- C10: for every membership-left push whose id is present in the list
store, channel_left is emitted exactly once whatever boolean the updater
removeChannel call returns: the emissions of the trace are identical for any
two result oracles. -/
theorem listLeft_emit_ignores_remove_result (removeRes removeRes2 : Nat → Bool)
    (addRes addRes2 : Nat → AddRes) (s : ListState) (data : ListData)
    (hpresent : listStoreGet s data.chatId = some data.chatId) :
    countBy isLocalChannelLeftEmit
      (listPushReceived removeRes addRes s "LEFT" data).2 = 1 ∧
    listEmissions (listPushReceived removeRes addRes s "LEFT" data).2 =
      listEmissions (listPushReceived removeRes2 addRes2 s "LEFT" data).2 := by
  constructor
  · simp [listPushReceived, hpresent, callListEvent, countBy, isLocalChannelLeftEmit]
  · simp [listPushReceived, hpresent, callListEvent, listEmissions, isListEmit,
      List.filter]

def wRemoveFalse : Nat → Bool := fun _ => false

theorem listLeft_emit_ignores_remove_result_witness :
    countBy isLocalChannelLeftEmit
      (listPushReceived wRemoveFalse wAddRes wListState "LEFT" wListData).2 = 1 ∧
    listEmissions (listPushReceived wRemoveFalse wAddRes wListState "LEFT" wListData).2 =
      listEmissions (listPushReceived wRemoveRes wAddRes wListState "LEFT" wListData).2 :=
  listLeft_emit_ignores_remove_result wRemoveFalse wRemoveRes wAddRes wAddRes
    wListState wListData rfl
